import Mathlib

/-!
Shallow embedding of the brand-extraction algorithmic core of
src/backend/brand_extraction/method1_dom_naive.py (class DOMNaiveExtractor)
together with the record types of src/backend/brand_extraction/base.py.

Python strings are modelled as Lean `String` (manipulated through their
character lists so every definition is executable and kernel-reducible),
Python `None`-returning fallible functions as `Option`, Python float
arithmetic as real arithmetic over `ℝ`, and the `Counter`/dict machinery as
explicit lists with first-encounter ordering (CPython dicts and Counters
iterate in insertion order).
-/

namespace Brand

/-- Characters of a string. -/
def chars (s : String) : List Char := s.toList

/-- Models Python str.strip() with no argument on a character list: drop
whitespace from both ends. -/
def stripWsChars (cs : List Char) : List Char :=
  ((cs.dropWhile Char.isWhitespace).reverse.dropWhile Char.isWhitespace).reverse

/-- Models Python str.strip(). -/
def pyStrip (s : String) : String := String.mk (stripWsChars (chars s))

/-- Models Python str.upper() (ASCII letters, which is all the code feeds it). -/
def pyUpper (s : String) : String := String.mk ((chars s).map Char.toUpper)

/-- Models Python str.lower() (ASCII letters, which is all the code feeds it). -/
def pyLower (s : String) : String := String.mk ((chars s).map Char.toLower)

/-- Does the character list start with the given pattern list. -/
def charsStartWith : List Char → List Char → Bool
  | _, [] => true
  | [], _ :: _ => false
  | c :: cs, p :: ps => c == p && charsStartWith cs ps

/-- Models Python str.startswith(pat). -/
def pyStartsWith (s pat : String) : Bool := charsStartWith (chars s) (chars pat)

/-- Models Python s[i:j] slicing (clamping, never raising). -/
def sliceStr (s : String) (i j : Nat) : String :=
  String.mk (((chars s).drop i).take (j - i))

/-- Value of a single hexadecimal digit character, none for a non-digit. -/
def hexCharVal (c : Char) : Option Nat :=
  if '0' ≤ c ∧ c ≤ '9' then some (c.toNat - '0'.toNat)
  else if 'a' ≤ c ∧ c ≤ 'f' then some (c.toNat - 'a'.toNat + 10)
  else if 'A' ≤ c ∧ c ≤ 'F' then some (c.toNat - 'A'.toNat + 10)
  else none

/-- Is the character a hexadecimal digit. -/
def isHexDigitChar (c : Char) : Bool := (hexCharVal c).isSome

/-- Big-endian value of a list of hexadecimal digit characters. -/
def hexStrVal (cs : List Char) : Nat :=
  cs.foldl (fun acc c => 16 * acc + ((hexCharVal c).getD 0)) 0

/-- Core of Python int(s, 16) on an already sign- and whitespace-free
character list: one or more hexadecimal digits, otherwise a parse failure. -/
def pyIntHexCore (cs : List Char) : Option Int :=
  if cs ≠ [] ∧ cs.all isHexDigitChar then some (hexStrVal cs) else none

/-- Models Python int(s, 16): optional surrounding whitespace, optional
sign, then one or more hexadecimal digits.  The additional 0x marker and
underscore separators Python accepts cannot occur together with a digit in
the at-most-two-character slices this program ever passes to int, so the
model agrees with Python on every reachable argument. -/
def pyIntHex (s : String) : Option Int :=
  match stripWsChars (chars s) with
  | '+' :: rest => pyIntHexCore rest
  | '-' :: rest => (pyIntHexCore rest).map (fun n => -n)
  | rest => pyIntHexCore rest

/-- Uppercase hexadecimal digit character for a value below 16, as produced
by Python format specifier X. -/
def hexDigitChar (n : Nat) : Char :=
  if n < 10 then Char.ofNat ('0'.toNat + n) else Char.ofNat ('A'.toNat + (n - 10))

/-- Big-endian uppercase hexadecimal digit characters of n.  The fuel
argument (always called with fuel greater than the digit count) only makes
the recursion structural; it never runs out. -/
def hexCharsAux : Nat → Nat → List Char
  | _, 0 => []
  | n, fuel + 1 =>
    if n < 16 then [hexDigitChar n]
    else hexCharsAux (n / 16) fuel ++ [hexDigitChar (n % 16)]

/-- Models the Python format specifier 02X applied to a nonnegative
integer: big-endian uppercase hexadecimal digits, zero-padded on the left
to a minimum width of two. -/
def fmt02XChars (n : Nat) : List Char :=
  let ds := hexCharsAux n (n + 1)
  if ds.length < 2 then '0' :: ds else ds

/-- Decimal value of a digit-character list, as Python int() computes it on
the all-digit runs produced by the regex search below. -/
def decStrVal (cs : List Char) : Nat :=
  cs.foldl (fun acc c => 10 * acc + (c.toNat - '0'.toNat)) 0

/-- Decimal value of a digit-run string. -/
def pyIntDec (s : String) : Nat := decStrVal (chars s)

/-- Accumulating scanner behind digitRuns: cur holds the current digit run
reversed. -/
def digitRunsAux : List Char → List Char → List String
  | [], cur => if cur = [] then [] else [String.mk cur.reverse]
  | c :: rest, cur =>
    if c.isDigit then digitRunsAux rest (c :: cur)
    else if cur = [] then digitRunsAux rest []
    else String.mk cur.reverse :: digitRunsAux rest []

/-- Models re.findall applied to the pattern of one-or-more digits: the
maximal runs of decimal digit characters of s, left to right. -/
def digitRuns (s : String) : List String := digitRunsAux (chars s) []

/-- Models the webcolors CSS3 named-color table (name_to_hex's lookup
target): lowercase name to lowercase 6-digit hex value. -/
def cssColorNames : List (String × String) :=
  [("aliceblue", "#f0f8ff"), ("antiquewhite", "#faebd7"), ("aqua", "#00ffff"),
   ("aquamarine", "#7fffd4"), ("azure", "#f0ffff"), ("beige", "#f5f5dc"),
   ("bisque", "#ffe4c4"), ("black", "#000000"), ("blanchedalmond", "#ffebcd"),
   ("blue", "#0000ff"), ("blueviolet", "#8a2be2"), ("brown", "#a52a2a"),
   ("burlywood", "#deb887"), ("cadetblue", "#5f9ea0"), ("chartreuse", "#7fff00"),
   ("chocolate", "#d2691e"), ("coral", "#ff7f50"), ("cornflowerblue", "#6495ed"),
   ("cornsilk", "#fff8dc"), ("crimson", "#dc143c"), ("cyan", "#00ffff"),
   ("darkblue", "#00008b"), ("darkcyan", "#008b8b"), ("darkgoldenrod", "#b8860b"),
   ("darkgray", "#a9a9a9"), ("darkgrey", "#a9a9a9"), ("darkgreen", "#006400"),
   ("darkkhaki", "#bdb76b"), ("darkmagenta", "#8b008b"),
   ("darkolivegreen", "#556b2f"), ("darkorange", "#ff8c00"),
   ("darkorchid", "#9932cc"), ("darkred", "#8b0000"), ("darksalmon", "#e9967a"),
   ("darkseagreen", "#8fbc8f"), ("darkslateblue", "#483d8b"),
   ("darkslategray", "#2f4f4f"), ("darkslategrey", "#2f4f4f"),
   ("darkturquoise", "#00ced1"), ("darkviolet", "#9400d3"),
   ("deeppink", "#ff1493"), ("deepskyblue", "#00bfff"), ("dimgray", "#696969"),
   ("dimgrey", "#696969"), ("dodgerblue", "#1e90ff"), ("firebrick", "#b22222"),
   ("floralwhite", "#fffaf0"), ("forestgreen", "#228b22"), ("fuchsia", "#ff00ff"),
   ("gainsboro", "#dcdcdc"), ("ghostwhite", "#f8f8ff"), ("gold", "#ffd700"),
   ("goldenrod", "#daa520"), ("gray", "#808080"), ("grey", "#808080"),
   ("green", "#008000"), ("greenyellow", "#adff2f"), ("honeydew", "#f0fff0"),
   ("hotpink", "#ff69b4"), ("indianred", "#cd5c5c"), ("indigo", "#4b0082"),
   ("ivory", "#fffff0"), ("khaki", "#f0e68c"), ("lavender", "#e6e6fa"),
   ("lavenderblush", "#fff0f5"), ("lawngreen", "#7cfc00"),
   ("lemonchiffon", "#fffacd"), ("lightblue", "#add8e6"),
   ("lightcoral", "#f08080"), ("lightcyan", "#e0ffff"),
   ("lightgoldenrodyellow", "#fafad2"), ("lightgray", "#d3d3d3"),
   ("lightgrey", "#d3d3d3"), ("lightgreen", "#90ee90"), ("lightpink", "#ffb6c1"),
   ("lightsalmon", "#ffa07a"), ("lightseagreen", "#20b2aa"),
   ("lightskyblue", "#87cefa"), ("lightslategray", "#778899"),
   ("lightslategrey", "#778899"), ("lightsteelblue", "#b0c4de"),
   ("lightyellow", "#ffffe0"), ("lime", "#00ff00"), ("limegreen", "#32cd32"),
   ("linen", "#faf0e6"), ("magenta", "#ff00ff"), ("maroon", "#800000"),
   ("mediumaquamarine", "#66cdaa"), ("mediumblue", "#0000cd"),
   ("mediumorchid", "#ba55d3"), ("mediumpurple", "#9370db"),
   ("mediumseagreen", "#3cb371"), ("mediumslateblue", "#7b68ee"),
   ("mediumspringgreen", "#00fa9a"), ("mediumturquoise", "#48d1cc"),
   ("mediumvioletred", "#c71585"), ("midnightblue", "#191970"),
   ("mintcream", "#f5fffa"), ("mistyrose", "#ffe4e1"), ("moccasin", "#ffe4b5"),
   ("navajowhite", "#ffdead"), ("navy", "#000080"), ("oldlace", "#fdf5e6"),
   ("olive", "#808000"), ("olivedrab", "#6b8e23"), ("orange", "#ffa500"),
   ("orangered", "#ff4500"), ("orchid", "#da70d6"),
   ("palegoldenrod", "#eee8aa"), ("palegreen", "#98fb98"),
   ("paleturquoise", "#afeeee"), ("palevioletred", "#db7093"),
   ("papayawhip", "#ffefd5"), ("peachpuff", "#ffdab9"), ("peru", "#cd853f"),
   ("pink", "#ffc0cb"), ("plum", "#dda0dd"), ("powderblue", "#b0e0e6"),
   ("purple", "#800080"), ("red", "#ff0000"), ("rosybrown", "#bc8f8f"),
   ("royalblue", "#4169e1"), ("saddlebrown", "#8b4513"), ("salmon", "#fa8072"),
   ("sandybrown", "#f4a460"), ("seagreen", "#2e8b57"), ("seashell", "#fff5ee"),
   ("sienna", "#a0522d"), ("silver", "#c0c0c0"), ("skyblue", "#87ceeb"),
   ("slateblue", "#6a5acd"), ("slategray", "#708090"), ("slategrey", "#708090"),
   ("snow", "#fffafa"), ("springgreen", "#00ff7f"), ("steelblue", "#4682b4"),
   ("tan", "#d2b48c"), ("teal", "#008080"), ("thistle", "#d8bfd8"),
   ("tomato", "#ff6347"), ("turquoise", "#40e0d0"), ("violet", "#ee82ee"),
   ("wheat", "#f5deb3"), ("white", "#ffffff"), ("whitesmoke", "#f5f5f5"),
   ("yellow", "#ffff00"), ("yellowgreen", "#9acd32")]

/-- Models webcolors.name_to_hex up to the caught ValueError: the library
lowercases the name, looks it up in the CSS3 table, and on a miss raises
(which _convert_to_hex catches), here none. -/
def cssNameToHex (name : String) : Option String := cssColorNames.lookup name

/-- The rgb branch of _convert_to_hex on the already-stripped string: when
the string starts with rgb and at least three digit runs are found, the
first three become the two-digit-formatted channels of the result; when it
starts with rgb but fewer runs are found, or does not start with rgb, the
branch yields nothing and control falls through to the named lookup. -/
def rgbBranch (c : String) : Option String :=
  if pyStartsWith c "rgb" then
    if 3 ≤ (digitRuns c).length then
      some (String.mk ('#' :: (fmt02XChars (pyIntDec ((digitRuns c).getD 0 "")) ++
        fmt02XChars (pyIntDec ((digitRuns c).getD 1 "")) ++
        fmt02XChars (pyIntDec ((digitRuns c).getD 2 "")))))
    else none
  else none

/-- The named-color tail of _convert_to_hex: webcolors lookup, result
uppercased; the ValueError of an unknown name is caught and becomes
the None result. -/
def namedBranch (c : String) : Option String :=
  match cssNameToHex (pyLower c) with
  | some hx => some (pyUpper hx)
  | none => none

/-- Models DOMNaiveExtractor._convert_to_hex: strip, pass hex strings
through uppercased, convert rgb()/rgba() via the first three digit runs
formatted 02X each, otherwise try the named-color table; none models the
Python None / swallowed-exception result. -/
def convertToHex (color : String) : Option String :=
  if pyStartsWith (pyStrip color) "#" then some (pyUpper (pyStrip color))
  else
    match rgbBranch (pyStrip color) with
    | some h => some h
    | none => namedBranch (pyStrip color)

/- Font classification. -/

/-- The generic_fonts set of _process_fonts. -/
def genericFonts : List String :=
  ["serif", "sans-serif", "monospace", "cursive", "fantasy", "system-ui"]

/-- The system_fonts set of _process_fonts. -/
def systemFonts : List String :=
  ["Arial", "Helvetica", "Times", "Courier", "Verdana", "Georgia",
   "Palatino", "Garamond", "Bookman", "Comic Sans MS", "Trebuchet MS",
   "Arial Black", "Impact"]

/-- The partition loop of _process_fonts: first component custom_fonts,
second fallback_fonts, both in first-seen order.  The generic check
lowercases the font, the system check compares it verbatim. -/
def classifyBuckets : List String → List String × List String
  | [] => ([], [])
  | f :: rest =>
    let r := classifyBuckets rest
    if pyLower f ∈ genericFonts then r
    else if f ∈ systemFonts then (r.1, f :: r.2)
    else (f :: r.1, r.2)

/-- The pre-padding selection of _process_fonts: the first two custom fonts
if any custom font exists, else the first two fallback fonts. -/
def initialSelection (fonts : List String) : List String :=
  if (classifyBuckets fonts).1 ≠ [] then (classifyBuckets fonts).1.take 2
  else (classifyBuckets fonts).2.take 2

/-- Models DOMNaiveExtractor._process_fonts (the fonts list of its result):
select, then pad with Helvetica, Arial, sans-serif and truncate to two. -/
def processFonts (fonts : List String) : List String :=
  let final0 := initialSelection fonts
  if final0.length < 2 then (final0 ++ ["Helvetica", "Arial", "sans-serif"]).take 2
  else final0

/- Color aggregation. -/

/-- The category-tagged raw color observation lists handed to
_process_colors, in the key order of the JavaScript-built dict. -/
structure ColorObservations where
  textColors : List String
  backgroundColors : List String
  borderColors : List String
  linkColors : List String
deriving DecidableEq

/-- The observation strings in the iteration order of colors.items(). -/
def rawColorList (o : ColorObservations) : List String :=
  o.textColors ++ o.backgroundColors ++ o.borderColors ++ o.linkColors

/-- The all_colors list of _process_colors: every observation normalized,
falsy results (None and the empty string) dropped. -/
def allColors (o : ColorObservations) : List String :=
  ((rawColorList o).filterMap convertToHex).filter (fun h => !(h == ""))

/-- First occurrence of each element, in first-encounter order: the key
order of a CPython Counter or dict built by insertion. -/
def dedupFirst : List String → List String
  | [] => []
  | x :: xs => x :: (dedupFirst xs).filter (fun y => !(y == x))

/-- The excluded_colors set of _process_colors. -/
def excludedColors : List String := ["#FFFFFF", "#000000", "#TRANSPARENT"]

/-- Key list of the filtered_colors dict of _process_colors: distinct
normalized colors in first-encounter order, exclusions removed. -/
def candidateKeys (o : ColorObservations) : List String :=
  (dedupFirst (allColors o)).filter (fun c => !(excludedColors.contains c))

/-- The most_common list of _process_colors: note the source takes
list(filtered_colors.keys())[:10], i.e. insertion order, not count order. -/
def rankedColors (o : ColorObservations) : List String :=
  if candidateKeys o = [] then ["#333333"] else (candidateKeys o).take 10

/-- Folding step behind Counter(l).most_common(1): keep the earliest
element whose count is maximal (a later element wins only strictly). -/
def mostCommonAux (l : List String) : List String → Option String → Option String
  | [], best => best
  | x :: xs, best =>
    mostCommonAux l xs
      (match best with
       | none => some x
       | some b => if l.count b < l.count x then some x else some b)

/-- Models Counter(l).most_common(1)[0][0]: the element of l with the
largest count, ties resolved to the first-encountered one. -/
def mostCommonOf (l : List String) : Option String :=
  mostCommonAux l (dedupFirst l) none

/-- Models DOMNaiveExtractor._get_most_common_color on an already-converted
list (None entries included, as _process_colors passes them). -/
def getMostCommonColor (colorList : List (Option String)) (default : String) : String :=
  match mostCommonOf ((colorList.filterMap id).filter
      (fun c => !(c == "") && !(c == "#FFFFFF") && !(c == "#000000"))) with
  | some c => c
  | none => default

/- Contrast arithmetic, over the reals. -/

/-- The sRGB-to-linear transfer applied per normalized channel inside
_get_contrast_ratio's luminance helper. -/
noncomputable def linearize (c : ℝ) : ℝ :=
  if c ≤ 0.03928 then c / 12.92 else ((c + 0.055) / 1.055) ^ (2.4 : ℝ)

/-- The channel triple the luminance helper parses: strip leading hash
marks, then int(hex[0:2], 16), int(hex[2:4], 16), int(hex[4:6], 16); none
models the ValueError the caller catches. -/
def rgbOfHex (hexColor : String) : Option (Int × Int × Int) :=
  let h := String.mk ((chars hexColor).dropWhile (fun c => c == '#'))
  match pyIntHex (sliceStr h 0 2), pyIntHex (sliceStr h 2 4), pyIntHex (sliceStr h 4 6) with
  | some r, some g, some b => some (r, g, b)
  | _, _, _ => none

/-- Relative luminance of a hex string, none when parsing raises. -/
noncomputable def luminance (hexColor : String) : Option ℝ :=
  (rgbOfHex hexColor).map (fun rgb =>
    0.2126 * linearize ((rgb.1 : ℝ) / 255) +
    0.7152 * linearize ((rgb.2.1 : ℝ) / 255) +
    0.0722 * linearize ((rgb.2.2 : ℝ) / 255))

/-- Models DOMNaiveExtractor._get_contrast_ratio: the WCAG ratio, or 1.0
when either luminance computation raises. -/
noncomputable def getContrast (color1 color2 : String) : ℝ :=
  match luminance color1, luminance color2 with
  | some lum1, some lum2 => (max lum1 lum2 + 0.05) / (min lum1 lum2 + 0.05)
  | _, _ => 1

/- Role selection. -/

/-- The BrandColors record of base.py. -/
structure BrandColors where
  primaryColor : String
  secondaryColor : String
  backgroundColor : String
  linkColor : String
deriving DecidableEq

/-- The bg_color chosen by _process_colors. -/
def backgroundChoice (o : ColorObservations) : String :=
  getMostCommonColor (o.backgroundColors.map convertToHex) "#FFFFFF"

/-- The link_color chosen by _process_colors. -/
def linkChoice (o : ColorObservations) : String :=
  getMostCommonColor (o.linkColors.map convertToHex) "#0066CC"

/-- The secondary_color of _process_colors before the legibility check:
most_common[1] when it exists, else the default. -/
def secondaryCandidate (o : ColorObservations) : String :=
  (rankedColors o).getD 1 "#666666"

/-- Models DOMNaiveExtractor._process_colors: the four brand color roles. -/
noncomputable def processColors (o : ColorObservations) : BrandColors :=
  let bgColor := backgroundChoice o
  let lnColor := linkChoice o
  let primaryColor := (rankedColors o).headD "#333333"
  let sec0 := secondaryCandidate o
  let secondaryColor :=
    if getContrast sec0 bgColor < 3 then
      (if bgColor ≠ "#333333" then "#333333" else "#FFFFFF")
    else sec0
  ⟨primaryColor, secondaryColor, bgColor, lnColor⟩

/-- The universal default BrandColors used by the error paths of
_process_colors and base.py's _create_error_result. -/
def defaultBrandColors : BrandColors :=
  ⟨"#333333", "#666666", "#FFFFFF", "#0066CC"⟩

/- Format predicates used by the claims. -/

/-- Uppercase hexadecimal digit in the sense of the spec invariant. -/
def isUpperHexChar (c : Char) : Bool := c.isDigit || ('A' ≤ c && c ≤ 'F')

/-- The canonical NormalizedColor shape of the spec: a hash mark followed
by exactly six uppercase hexadecimal digits. -/
def isCanonicalHex (s : String) : Bool :=
  match chars s with
  | '#' :: rest => rest.length == 6 && rest.all isUpperHexChar
  | _ => false

/-- A well-formed 6-digit hex color in the sense of claim C7: a hash mark
followed by exactly six hexadecimal digits of either case. -/
def wellFormedHex (s : String) : Bool :=
  match chars s with
  | '#' :: rest => rest.length == 6 && rest.all isHexDigitChar
  | _ => false

/-- Decoded channel value of the two hex digits starting at index i. -/
def decodeHexPair (s : String) (i : Nat) : Nat :=
  hexStrVal (((chars s).drop i).take 2)

end Brand

namespace Brand

/- Shared helper lemmas. -/

theorem initialSelection_le_two (fonts : List String) :
    (initialSelection fonts).length ≤ 2 := by
  unfold initialSelection
  split <;> simp [List.length_take]

theorem dedupFirst_subset (l : List String) : ∀ x, x ∈ dedupFirst l → x ∈ l := by
  induction l with
  | nil => simp [dedupFirst]
  | cons a as ih =>
    intro x hx
    simp only [dedupFirst, List.mem_cons] at hx ⊢
    rcases hx with rfl | hx
    · exact Or.inl rfl
    · exact Or.inr (ih x (List.mem_of_mem_filter hx))

theorem mostCommonAux_mem (l : List String) :
    ∀ (keys : List String) (acc : Option String) (c : String),
      mostCommonAux l keys acc = some c → c ∈ keys ∨ acc = some c := by
  intro keys
  induction keys with
  | nil =>
    intro acc c h
    exact Or.inr h
  | cons x xs ih =>
    intro acc c h
    simp only [mostCommonAux] at h
    rcases ih _ c h with hk | he
    · exact Or.inl (List.mem_cons_of_mem _ hk)
    · rcases acc with _ | b
      · left
        have : x = c := by
          have h' : some x = some c := he
          exact Option.some.inj h'
        rw [← this]
        exact List.mem_cons_self _ _
      · by_cases hc : l.count b < l.count x
        · left
          have h' : some x = some c := by
            have : (if l.count b < l.count x then some x else some b) = some c := he
            rwa [if_pos hc] at this
          rw [← Option.some.inj h']
          exact List.mem_cons_self _ _
        · right
          have : (if l.count b < l.count x then some x else some b) = some c := he
          rwa [if_neg hc] at this

theorem mostCommonOf_mem (l : List String) (c : String)
    (h : mostCommonOf l = some c) : c ∈ l := by
  rcases mostCommonAux_mem l (dedupFirst l) none c h with hk | he
  · exact dedupFirst_subset l c hk
  · exact Option.noConfusion he

theorem getMostCommonColor_cases (cl : List (Option String)) (d : String) :
    getMostCommonColor cl d = d ∨ some (getMostCommonColor cl d) ∈ cl := by
  unfold getMostCommonColor
  rcases hm : mostCommonOf ((cl.filterMap id).filter
      (fun c => !(c == "") && !(c == "#FFFFFF") && !(c == "#000000"))) with _ | c
  · left
    rfl
  · right
    show some c ∈ cl
    have hc := mostCommonOf_mem _ _ hm
    have hc2 : c ∈ cl.filterMap id := List.mem_of_mem_filter hc
    rcases List.mem_filterMap.mp hc2 with ⟨a, ha, hida⟩
    have : a = some c := hida
    rwa [this] at ha

theorem getD_mem_or (l : List String) (n : Nat) (d : String) :
    l.getD n d ∈ l ∨ l.getD n d = d := by
  induction l generalizing n with
  | nil => right; cases n <;> rfl
  | cons a as ih =>
    cases n with
    | zero => left; rw [List.getD_cons_zero]; exact List.mem_cons_self a as
    | succ m =>
      rw [List.getD_cons_succ]
      rcases ih m with h | h
      · exact Or.inl (List.mem_cons_of_mem a h)
      · exact Or.inr h

/-- The observation strings underlying each role color: everything a
successful normalization of some raw observation can be. -/
def normalizedInputs (o : ColorObservations) : List String :=
  (rawColorList o).filterMap convertToHex

/-- The constant pool of role defaults and overrides in _process_colors. -/
def roleConstants : List String := ["#333333", "#666666", "#FFFFFF", "#0066CC"]

theorem allColors_subset_normalized (o : ColorObservations) :
    ∀ c, c ∈ allColors o → c ∈ normalizedInputs o := by
  intro c hc
  exact List.mem_of_mem_filter hc

theorem rankedColors_mem (o : ColorObservations) (c : String)
    (h : c ∈ rankedColors o) : c ∈ normalizedInputs o ∨ c = "#333333" := by
  unfold rankedColors at h
  by_cases hk : candidateKeys o = []
  · rw [if_pos hk] at h
    right
    rcases List.mem_singleton.mp h with rfl
    rfl
  · rw [if_neg hk] at h
    left
    have h1 : c ∈ candidateKeys o := List.take_subset _ _ h
    have h2 : c ∈ dedupFirst (allColors o) := List.mem_of_mem_filter h1
    exact allColors_subset_normalized o c (dedupFirst_subset _ c h2)

/-- The shape of the record _process_colors builds (definitional). -/
theorem processColors_shape (o : ColorObservations) :
    processColors o = ⟨(rankedColors o).headD "#333333",
      (if getContrast (secondaryCandidate o) (backgroundChoice o) < 3 then
        (if backgroundChoice o ≠ "#333333" then "#333333" else "#FFFFFF")
      else secondaryCandidate o), backgroundChoice o, linkChoice o⟩ := rfl


/- Claim C8. -/

/-- C8: for every input list of font-family strings, including the empty
list, _process_fonts returns a list of exactly 2 font names. -/
theorem c8_fonts_always_two (fonts : List String) :
    (processFonts fonts).length = 2 := by
  have hle := initialSelection_le_two fonts
  unfold processFonts
  by_cases h : (initialSelection fonts).length < 2
  · rw [if_pos h]
    simp only [List.length_take, List.length_append, List.length_cons]
    omega
  · rw [if_neg h]
    omega

/- Claim C2. -/

/-- The raw font list of the C2 scenario. -/
def fontsC2 : List String := ["Inter", "Arial", "sans-serif", "Arial"]

/-- C2 counterexample: on the scenario input the fallback bucket is not
the claimed one-element list and the final selection is not the claimed
list Inter, Arial. -/
theorem c2_counterexample :
    (classifyBuckets fontsC2).2 ≠ ["Arial"] ∧
    processFonts fontsC2 ≠ ["Inter", "Arial"] := by
  decide

/-- C2 amended: on the scenario input the custom bucket is Inter, the
fallback bucket keeps both occurrences of Arial, and because a custom
font exists the final selection is the custom bucket padded with
Helvetica, giving Inter, Helvetica. -/
theorem c2_amended :
    (classifyBuckets fontsC2).1 = ["Inter"] ∧
    (classifyBuckets fontsC2).2 = ["Arial", "Arial"] ∧
    processFonts fontsC2 = ["Inter", "Helvetica"] := by
  decide

/- Claim C10. -/

/-- C10: the generic-keyword check lowercases the font but the system-font
check compares verbatim, so any font whose lowercase form is not a generic
keyword and whose exact spelling is not in the system set lands in the
custom bucket; in particular lowercase arial is custom and classification
of the single-element list arial yields arial, Helvetica. -/
theorem c10_system_case_sensitive (fonts : List String) (f : String)
    (hmem : f ∈ fonts) (hgen : pyLower f ∉ genericFonts) (hsys : f ∉ systemFonts) :
    f ∈ (classifyBuckets fonts).1 ∧ processFonts ["arial"] = ["arial", "Helvetica"] := by
  refine ⟨?_, by decide⟩
  induction fonts with
  | nil => cases hmem
  | cons g rest ih =>
    rcases List.mem_cons.mp hmem with rfl | hr
    · show f ∈ (let r := classifyBuckets rest;
        if pyLower f ∈ genericFonts then r
        else if f ∈ systemFonts then (r.1, f :: r.2)
        else (f :: r.1, r.2)).1
      rw [if_neg hgen, if_neg hsys]
      exact List.mem_cons_self _ _
    · have hf := ih hr
      show f ∈ (let r := classifyBuckets rest;
        if pyLower g ∈ genericFonts then r
        else if g ∈ systemFonts then (r.1, g :: r.2)
        else (g :: r.1, r.2)).1
      by_cases h1 : pyLower g ∈ genericFonts
      · rw [if_pos h1]; exact hf
      · rw [if_neg h1]
        by_cases h2 : g ∈ systemFonts
        · rw [if_pos h2]; exact hf
        · rw [if_neg h2]; exact List.mem_cons_of_mem _ hf

/-- C10 witness: the theorem applied to the concrete list arial. -/
theorem c10_witness :
    ("arial" : String) ∈ (classifyBuckets ["arial"]).1 ∧
    processFonts ["arial"] = ["arial", "Helvetica"] :=
  c10_system_case_sensitive ["arial"] "arial" (by decide) (by decide) (by decide)

/- Claim C1. -/

/-- Observations on which first-encounter order and count order differ. -/
def obsC1 : ColorObservations := ⟨["#111111", "#222222", "#222222"], [], [], []⟩

/-- C1: evaluation at the failing input.  The source takes the keys of the
filtered frequency dict in insertion (first-encounter) order, so the color
seen once but first is ranked ahead of the color seen twice, and becomes
primaryColor, contradicting the claimed descending-count order. -/
theorem c1_rank_ignores_counts :
    rankedColors obsC1 = ["#111111", "#222222"] ∧
    List.count "#222222" (allColors obsC1) = 2 ∧
    List.count "#111111" (allColors obsC1) = 1 ∧
    (processColors obsC1).primaryColor = "#111111" :=
  ⟨by decide, by decide, by decide, rfl⟩


/- Formatting facts for the rgb branch. -/

set_option maxRecDepth 4096 in
theorem fmt02X_fin : ∀ n : Fin 256,
    (fmt02XChars n.val).length = 2 ∧
    (fmt02XChars n.val).all isUpperHexChar = true ∧
    hexStrVal (fmt02XChars n.val) = n.val := by decide

theorem fmt02X_spec (n : Nat) (h : n ≤ 255) :
    (fmt02XChars n).length = 2 ∧
    (fmt02XChars n).all isUpperHexChar = true ∧
    hexStrVal (fmt02XChars n) = n := by
  have := fmt02X_fin ⟨n, by omega⟩
  simpa using this

theorem isCanonicalHex_mk_cons (l : List Char) :
    isCanonicalHex (String.mk ('#' :: l)) = (l.length == 6 && l.all isUpperHexChar) := rfl

theorem rgbOut_canonical (a b c : Nat) (ha : a ≤ 255) (hb : b ≤ 255) (hc : c ≤ 255) :
    isCanonicalHex (String.mk ('#' ::
      (fmt02XChars a ++ fmt02XChars b ++ fmt02XChars c))) = true := by
  obtain ⟨la, ua, -⟩ := fmt02X_spec a ha
  obtain ⟨lb, ub, -⟩ := fmt02X_spec b hb
  obtain ⟨lc, uc, -⟩ := fmt02X_spec c hc
  rw [isCanonicalHex_mk_cons]
  simp [List.length_append, List.all_append, la, lb, lc, ua, ub, uc]

theorem lookup_val (l : List (String × String)) :
    ∀ k v, l.lookup k = some v → ∃ p ∈ l, p.2 = v := by
  induction l with
  | nil => intro k v h; cases h
  | cons p rest ih =>
    intro k v h
    obtain ⟨pk, pv⟩ := p
    simp only [List.lookup] at h
    cases hbeq : (k == pk) with
    | true =>
      rw [hbeq] at h
      exact ⟨(pk, pv), List.mem_cons_self _ _, Option.some.inj h⟩
    | false =>
      rw [hbeq] at h
      obtain ⟨q, hq, hv⟩ := ih k v h
      exact ⟨q, List.mem_cons_of_mem _ hq, hv⟩

theorem cssTable_canonical :
    cssColorNames.all (fun p => isCanonicalHex (pyUpper p.2)) = true := by decide

/- Branch evaluation lemmas for _convert_to_hex. -/

theorem convertToHex_hash (s : String) (h : pyStartsWith (pyStrip s) "#" = true) :
    convertToHex s = some (pyUpper (pyStrip s)) := by
  unfold convertToHex
  rw [if_pos h]

theorem rgbBranch_eval (c : String) (r g b : String) (rest : List String)
    (h2 : pyStartsWith c "rgb" = true) (h3 : digitRuns c = r :: g :: b :: rest) :
    rgbBranch c = some (String.mk ('#' :: (fmt02XChars (pyIntDec r) ++
      fmt02XChars (pyIntDec g) ++ fmt02XChars (pyIntDec b)))) := by
  unfold rgbBranch
  rw [if_pos h2, h3]
  rw [if_pos (by simp only [List.length_cons]; omega)]
  rfl

theorem rgbBranch_none (c : String) (h : pyStartsWith c "rgb" = false) :
    rgbBranch c = none := by
  unfold rgbBranch
  rw [if_neg (by simp [h])]

theorem convertToHex_viaRgb (s out : String)
    (h1 : pyStartsWith (pyStrip s) "#" = false)
    (h2 : rgbBranch (pyStrip s) = some out) :
    convertToHex s = some out := by
  unfold convertToHex
  rw [if_neg (by simp [h1]), h2]

theorem convertToHex_named (s hx : String)
    (h1 : pyStartsWith (pyStrip s) "#" = false)
    (h2 : rgbBranch (pyStrip s) = none)
    (h3 : cssNameToHex (pyLower (pyStrip s)) = some hx) :
    convertToHex s = some (pyUpper hx) := by
  unfold convertToHex
  rw [if_neg (by simp [h1]), h2]
  unfold namedBranch
  rw [h3]

/- Claim C3. -/

/-- C3 counterexample: the hex pass-through branch does not validate, so a
present normalization result can fail the 7-character canonical format. -/
theorem c3_counterexample :
    convertToHex "#abc" = some "#ABC" ∧ "#ABC".length ≠ 7 ∧
    isCanonicalHex "#ABC" = false := by decide

/-- C3 amended: a present normalization result is the canonical 7-character
uppercase hex form when produced by the rgb branch with channels at most
255 or by the named-color branch; hex pass-through inputs are returned
uppercased as-is without validation, so their shape is exactly the input's
shape, and rgb channels above 255 widen beyond 7 characters. -/
theorem c3_amended :
    (∀ s, pyStartsWith (pyStrip s) "#" = true →
        convertToHex s = some (pyUpper (pyStrip s))) ∧
    (∀ s r g b rest, pyStartsWith (pyStrip s) "#" = false →
        pyStartsWith (pyStrip s) "rgb" = true →
        digitRuns (pyStrip s) = r :: g :: b :: rest →
        pyIntDec r ≤ 255 → pyIntDec g ≤ 255 → pyIntDec b ≤ 255 →
        ∃ out, convertToHex s = some out ∧ isCanonicalHex out = true) ∧
    (∀ s hx, pyStartsWith (pyStrip s) "#" = false →
        pyStartsWith (pyStrip s) "rgb" = false →
        cssNameToHex (pyLower (pyStrip s)) = some hx →
        convertToHex s = some (pyUpper hx) ∧ isCanonicalHex (pyUpper hx) = true) := by
  refine ⟨convertToHex_hash, ?_, ?_⟩
  · intro s r g b rest h1 h2 h3 hr hg hb
    exact ⟨_, convertToHex_viaRgb s _ h1 (rgbBranch_eval _ r g b rest h2 h3),
      rgbOut_canonical _ _ _ hr hg hb⟩
  · intro s hx h1 h2 h3
    refine ⟨convertToHex_named s hx h1 (rgbBranch_none _ h2) h3, ?_⟩
    obtain ⟨p, hp, hv⟩ := lookup_val cssColorNames (pyLower (pyStrip s)) hx h3
    have hall := List.all_eq_true.mp cssTable_canonical p hp
    rwa [hv] at hall

/-- C3 witness: each branch of the amended theorem at a concrete input. -/
theorem c3_witness :
    convertToHex "#0a0B0c" = some (pyUpper (pyStrip "#0a0B0c")) ∧
    (∃ out, convertToHex "rgb(1, 2, 3)" = some out ∧ isCanonicalHex out = true) ∧
    (convertToHex "navy" = some (pyUpper "#000080") ∧
      isCanonicalHex (pyUpper "#000080") = true) :=
  ⟨c3_amended.1 "#0a0B0c" (by decide),
   c3_amended.2.1 "rgb(1, 2, 3)" "1" "2" "3" [] (by decide) (by decide) (by decide)
     (by decide) (by decide) (by decide),
   c3_amended.2.2 "navy" "#000080" (by decide) (by decide) (by decide)⟩

/- Claim C6. -/

theorem take_drop_two (A B C : List Char) (la : A.length = 2) (lb : B.length = 2)
    (lc : C.length = 2) :
    (A ++ B ++ C).take 2 = A ∧ ((A ++ B ++ C).drop 2).take 2 = B ∧
    ((A ++ B ++ C).drop 4).take 2 = C := by
  obtain ⟨a1, a2, rfl⟩ := List.length_eq_two.mp la
  obtain ⟨b1, b2, rfl⟩ := List.length_eq_two.mp lb
  obtain ⟨c1, c2, rfl⟩ := List.length_eq_two.mp lc
  simp

theorem decode_rgbOut (a b c : Nat) (ha : a ≤ 255) (hb : b ≤ 255) (hc : c ≤ 255) :
    decodeHexPair (String.mk ('#' :: (fmt02XChars a ++ fmt02XChars b ++ fmt02XChars c))) 1 = a ∧
    decodeHexPair (String.mk ('#' :: (fmt02XChars a ++ fmt02XChars b ++ fmt02XChars c))) 3 = b ∧
    decodeHexPair (String.mk ('#' :: (fmt02XChars a ++ fmt02XChars b ++ fmt02XChars c))) 5 = c := by
  obtain ⟨la, -, va⟩ := fmt02X_spec a ha
  obtain ⟨lb, -, vb⟩ := fmt02X_spec b hb
  obtain ⟨lc, -, vc⟩ := fmt02X_spec c hc
  obtain ⟨t1, t2, t3⟩ := take_drop_two _ _ _ la lb lc
  refine ⟨?_, ?_, ?_⟩
  · show hexStrVal ((fmt02XChars a ++ fmt02XChars b ++ fmt02XChars c).take 2) = a
    rw [t1]; exact va
  · show hexStrVal (((fmt02XChars a ++ fmt02XChars b ++ fmt02XChars c).drop 2).take 2) = b
    rw [t2]; exact vb
  · show hexStrVal (((fmt02XChars a ++ fmt02XChars b ++ fmt02XChars c).drop 4).take 2) = c
    rw [t3]; exact vc

/-- C6: every rgb()/rgba() observation whose first three digit runs are
channels at most 255 normalizes to a present 7-character uppercase hex
string whose three decoded two-digit channels equal the parsed channels. -/
theorem c6_rgb_roundtrip (s r g b : String) (rest : List String)
    (h1 : pyStartsWith (pyStrip s) "#" = false)
    (h2 : pyStartsWith (pyStrip s) "rgb" = true)
    (h3 : digitRuns (pyStrip s) = r :: g :: b :: rest)
    (hr : pyIntDec r ≤ 255) (hg : pyIntDec g ≤ 255) (hb : pyIntDec b ≤ 255) :
    ∃ out, convertToHex s = some out ∧ out.length = 7 ∧ isCanonicalHex out = true ∧
      decodeHexPair out 1 = pyIntDec r ∧ decodeHexPair out 3 = pyIntDec g ∧
      decodeHexPair out 5 = pyIntDec b := by
  obtain ⟨la, -, -⟩ := fmt02X_spec _ hr
  obtain ⟨lb2, -, -⟩ := fmt02X_spec _ hg
  obtain ⟨lc2, -, -⟩ := fmt02X_spec _ hb
  obtain ⟨d1, d2, d3⟩ := decode_rgbOut _ _ _ hr hg hb
  refine ⟨_, convertToHex_viaRgb s _ h1 (rgbBranch_eval _ r g b rest h2 h3), ?_,
    rgbOut_canonical _ _ _ hr hg hb, d1, d2, d3⟩
  show ('#' :: (fmt02XChars (pyIntDec r) ++ fmt02XChars (pyIntDec g) ++
    fmt02XChars (pyIntDec b))).length = 7
  simp [List.length_append, la, lb2, lc2]

/-- C6 witness: the theorem applied to a concrete rgb string. -/
theorem c6_witness :
    ∃ out, convertToHex "rgb(17, 34, 51)" = some out ∧ out.length = 7 ∧
      isCanonicalHex out = true ∧
      decodeHexPair out 1 = pyIntDec "17" ∧ decodeHexPair out 3 = pyIntDec "34" ∧
      decodeHexPair out 5 = pyIntDec "51" :=
  c6_rgb_roundtrip "rgb(17, 34, 51)" "17" "34" "51" [] (by decide) (by decide)
    (by decide) (by decide) (by decide) (by decide)

/- Contrast evaluation lemmas. -/

theorem getContrast_eval (c1 c2 : String) (l1 l2 : ℝ)
    (h1 : luminance c1 = some l1) (h2 : luminance c2 = some l2) :
    getContrast c1 c2 = (max l1 l2 + 0.05) / (min l1 l2 + 0.05) := by
  unfold getContrast
  rw [h1, h2]

theorem luminance_eval (s : String) (r g b : Int) (x y z : ℝ)
    (h : rgbOfHex s = some (r, g, b)) (hx : (r : ℝ) = x) (hy : (g : ℝ) = y)
    (hz : (b : ℝ) = z) :
    luminance s = some (0.2126 * linearize (x / 255) + 0.7152 * linearize (y / 255) +
      0.0722 * linearize (z / 255)) := by
  subst hx hy hz
  simp [luminance, h]

theorem linearize_small (c : ℝ) (h : c ≤ 0.03928) : linearize c = c / 12.92 := by
  unfold linearize
  rw [if_pos h]

theorem linearize_one : linearize 1 = 1 := by
  unfold linearize
  rw [if_neg (by norm_num)]
  have h : ((1 : ℝ) + 0.055) / 1.055 = 1 := by norm_num
  rw [h, Real.one_rpow]

theorem linearize_gray : linearize ((102 : ℝ) / 255) = ((91 : ℝ) / 211) ^ (2.4 : ℝ) := by
  unfold linearize
  rw [if_neg (by norm_num)]
  have h : ((102 : ℝ) / 255 + 0.055) / 1.055 = 91 / 211 := by norm_num
  rw [h]

theorem gray_rpow_bound : ((91 : ℝ) / 211) ^ (2.4 : ℝ) ≤ 0.19 := by
  have h1 : ((91 : ℝ) / 211) ^ (2.4 : ℝ) ≤ ((91 : ℝ) / 211) ^ (2 : ℝ) :=
    Real.rpow_le_rpow_of_exponent_ge (by norm_num) (by norm_num) (by norm_num)
  have h2 : ((91 : ℝ) / 211) ^ (2 : ℝ) = ((91 : ℝ) / 211) ^ (2 : ℕ) := by
    rw [← Real.rpow_natCast ((91 : ℝ) / 211) 2]
    norm_num
  calc ((91 : ℝ) / 211) ^ (2.4 : ℝ) ≤ ((91 : ℝ) / 211) ^ (2 : ℝ) := h1
    _ = ((91 : ℝ) / 211) ^ (2 : ℕ) := h2
    _ ≤ 0.19 := by norm_num

theorem contrast_gray_white : (3 : ℝ) ≤ getContrast "#666666" "#FFFFFF" := by
  have h1 : rgbOfHex "#666666" = some (102, 102, 102) := by decide
  have h2 : rgbOfHex "#FFFFFF" = some (255, 255, 255) := by decide
  rw [getContrast_eval _ _ _ _
      (luminance_eval _ 102 102 102 102 102 102 h1 (by norm_num) (by norm_num) (by norm_num))
      (luminance_eval _ 255 255 255 255 255 255 h2 (by norm_num) (by norm_num) (by norm_num))]
  rw [show ((255 : ℝ) / 255) = 1 by norm_num, linearize_one, linearize_gray]
  have hyb : ((91 : ℝ) / 211) ^ (2.4 : ℝ) ≤ 0.19 := gray_rpow_bound
  have hy0 : (0 : ℝ) ≤ ((91 : ℝ) / 211) ^ (2.4 : ℝ) := Real.rpow_nonneg (by norm_num) _
  set y := ((91 : ℝ) / 211) ^ (2.4 : ℝ)
  have e1 : (0.2126 : ℝ) * y + 0.7152 * y + 0.0722 * y = y := by ring
  have e2 : (0.2126 : ℝ) * 1 + 0.7152 * 1 + 0.0722 * 1 = 1 := by norm_num
  rw [e1, e2]
  rw [max_eq_right (by linarith : y ≤ 1), min_eq_left (by linarith : y ≤ 1)]
  rw [le_div_iff₀ (by linarith : (0 : ℝ) < y + 0.05)]
  linarith

theorem contrast_dark : getContrast "#020202" "#0A0A0A" < 3 := by
  have h1 : rgbOfHex "#020202" = some (2, 2, 2) := by decide
  have h2 : rgbOfHex "#0A0A0A" = some (10, 10, 10) := by decide
  rw [getContrast_eval _ _ _ _
      (luminance_eval _ 2 2 2 2 2 2 h1 (by norm_num) (by norm_num) (by norm_num))
      (luminance_eval _ 10 10 10 10 10 10 h2 (by norm_num) (by norm_num) (by norm_num))]
  rw [linearize_small ((2 : ℝ) / 255) (by norm_num),
    linearize_small ((10 : ℝ) / 255) (by norm_num)]
  rw [max_eq_right (by norm_num), min_eq_left (by norm_num)]
  rw [div_lt_iff₀ (by norm_num)]
  norm_num

/- Claim C7. -/

/-- C7 counterexample: a malformed over-long hex string still parses its
first six digits, so against black it yields the full ratio 21, not the
claimed neutral 1.0. -/
theorem c7_counterexample :
    wellFormedHex "#FFFFFFFF" = false ∧ getContrast "#FFFFFFFF" "#000000" = 21 := by
  constructor
  · decide
  · have h1 : rgbOfHex "#FFFFFFFF" = some (255, 255, 255) := by decide
    have h2 : rgbOfHex "#000000" = some (0, 0, 0) := by decide
    rw [getContrast_eval _ _ _ _
        (luminance_eval _ 255 255 255 255 255 255 h1 (by norm_num) (by norm_num) (by norm_num))
        (luminance_eval _ 0 0 0 0 0 0 h2 (by norm_num) (by norm_num) (by norm_num))]
    rw [show ((255 : ℝ) / 255) = 1 by norm_num, linearize_one,
      show ((0 : ℝ) / 255) = 0 by norm_num, linearize_small 0 (by norm_num)]
    rw [max_eq_left (by norm_num), min_eq_right (by norm_num)]
    norm_num

/-- C7 amended: _get_contrast_ratio is total and returns the neutral 1.0
whenever channel parsing of either argument raises (an empty or non-hex
slice among the first six post-hash characters); malformed inputs whose
first six characters still parse as hex digits, such as over-long hex
strings, instead produce a regular ratio. -/
theorem c7_parse_failure_neutral (c1 c2 : String)
    (h : rgbOfHex c1 = none ∨ rgbOfHex c2 = none) :
    getContrast c1 c2 = 1 := by
  unfold getContrast
  rcases h with h | h
  · have h1 : luminance c1 = none := by simp [luminance, h]
    rw [h1]
  · have h2 : luminance c2 = none := by simp [luminance, h]
    rw [h2]
    rcases h1 : luminance c1 with _ | l <;> rfl

/-- C7 witness: the amended theorem at a concrete unparseable input. -/
theorem c7_witness : getContrast "zz" "#000000" = 1 :=
  c7_parse_failure_neutral "zz" "#000000" (Or.inl (by decide))

/- Claim C4. -/

/-- C4: after the secondary candidate and the background are chosen, the
legibility check overrides the secondary to the dark default, or to white
when the background is itself the dark default, exactly when the contrast
ratio is below 3; at a ratio of at least 3 the candidate is kept. -/
theorem c4_secondary_override (o : ColorObservations) :
    (getContrast (secondaryCandidate o) (backgroundChoice o) < 3 →
      (processColors o).secondaryColor =
        if backgroundChoice o ≠ "#333333" then "#333333" else "#FFFFFF") ∧
    (3 ≤ getContrast (secondaryCandidate o) (backgroundChoice o) →
      (processColors o).secondaryColor = secondaryCandidate o) := by
  have hshape : (processColors o).secondaryColor =
      if getContrast (secondaryCandidate o) (backgroundChoice o) < 3 then
        (if backgroundChoice o ≠ "#333333" then "#333333" else "#FFFFFF")
      else secondaryCandidate o := rfl
  constructor
  · intro h
    rw [hshape, if_pos h]
  · intro h
    rw [hshape, if_neg (not_lt.mpr h)]

/-- Observations exercising the low-contrast branch of the check. -/
def obsC4a : ColorObservations := ⟨["#010101", "#020202"], ["#0A0A0A"], [], []⟩

/-- Observations exercising the kept-candidate branch of the check. -/
def obsC4b : ColorObservations := ⟨["#555555", "#666666"], [], [], []⟩

/-- C4 witness: both branches of the override at concrete observations. -/
theorem c4_witness :
    getContrast "#020202" "#0A0A0A" < 3 ∧
    (processColors obsC4a).secondaryColor = "#333333" ∧
    3 ≤ getContrast "#666666" "#FFFFFF" ∧
    (processColors obsC4b).secondaryColor = "#666666" := by
  have e1 : secondaryCandidate obsC4a = "#020202" := by decide
  have e2 : backgroundChoice obsC4a = "#0A0A0A" := by decide
  have e3 : secondaryCandidate obsC4b = "#666666" := by decide
  have e4 : backgroundChoice obsC4b = "#FFFFFF" := by decide
  refine ⟨contrast_dark, ?_, contrast_gray_white, ?_⟩
  · have h := (c4_secondary_override obsC4a).1 (by rw [e1, e2]; exact contrast_dark)
    rw [e2] at h
    rw [h, if_pos (by decide)]
  · have h := (c4_secondary_override obsC4b).2 (by rw [e3, e4]; exact contrast_gray_white)
    rw [h, e3]

/- Claim C5. -/

/-- C5: when every raw observation fails normalization, in particular when
all observation lists are empty, _process_colors returns exactly the
universal default set. -/
theorem c5_unparseable_default (o : ColorObservations)
    (h : ∀ s ∈ rawColorList o, convertToHex s = none) :
    processColors o = defaultBrandColors := by
  have hall : allColors o = [] := by
    unfold allColors
    rw [List.filterMap_eq_nil_iff.mpr h]
    rfl
  have hkeys : candidateKeys o = [] := by
    unfold candidateKeys
    rw [hall]
    rfl
  have hrank : rankedColors o = ["#333333"] := by
    unfold rankedColors
    rw [if_pos hkeys]
  have hbg : backgroundChoice o = "#FFFFFF" := by
    unfold backgroundChoice getMostCommonColor
    have hnil : (o.backgroundColors.map convertToHex).filterMap id = [] := by
      rw [List.filterMap_eq_nil_iff]
      intro a ha
      rcases List.mem_map.mp ha with ⟨s, hs, rfl⟩
      exact h s (by unfold rawColorList; simp [hs])
    rw [hnil]
    rfl
  have hlink : linkChoice o = "#0066CC" := by
    unfold linkChoice getMostCommonColor
    have hnil : (o.linkColors.map convertToHex).filterMap id = [] := by
      rw [List.filterMap_eq_nil_iff]
      intro a ha
      rcases List.mem_map.mp ha with ⟨s, hs, rfl⟩
      exact h s (by unfold rawColorList; simp [hs])
    rw [hnil]
    rfl
  have hsec : secondaryCandidate o = "#666666" := by
    unfold secondaryCandidate
    rw [hrank]
    rfl
  have hcon : ¬ getContrast (secondaryCandidate o) (backgroundChoice o) < 3 := by
    rw [hsec, hbg]
    exact not_lt.mpr contrast_gray_white
  rw [processColors_shape o, if_neg hcon, hrank, hsec, hbg, hlink]
  rfl

/-- Observations every one of which fails normalization. -/
def obsC5 : ColorObservations :=
  ⟨["transparent", "inherit"], ["notacolor"], [], ["rgb()"]⟩

/-- C5 witness: the theorem at concrete unparseable observations. -/
theorem c5_witness : processColors obsC5 = defaultBrandColors :=
  c5_unparseable_default obsC5 (by decide)

/- Claim C9. -/

/-- C9: each of the four role colors _process_colors returns is either the
normalization of one of the raw observation strings or one of the four
fixed role constants; no role color is synthesized from any other source. -/
theorem c9_role_provenance (o : ColorObservations) :
    ((processColors o).primaryColor ∈ normalizedInputs o ∨
      (processColors o).primaryColor ∈ roleConstants) ∧
    ((processColors o).secondaryColor ∈ normalizedInputs o ∨
      (processColors o).secondaryColor ∈ roleConstants) ∧
    ((processColors o).backgroundColor ∈ normalizedInputs o ∨
      (processColors o).backgroundColor ∈ roleConstants) ∧
    ((processColors o).linkColor ∈ normalizedInputs o ∨
      (processColors o).linkColor ∈ roleConstants) := by
  refine ⟨?_, ?_, ?_, ?_⟩
  · have hp : (processColors o).primaryColor = (rankedColors o).headD "#333333" := rfl
    rw [hp]
    cases hr : rankedColors o with
    | nil => right; decide
    | cons x xs =>
      rw [List.headD_cons]
      have hx : x ∈ rankedColors o := by rw [hr]; exact List.mem_cons_self _ _
      rcases rankedColors_mem o x hx with h | h
      · exact Or.inl h
      · right; rw [h]; decide
  · have hs : (processColors o).secondaryColor =
        if getContrast (secondaryCandidate o) (backgroundChoice o) < 3 then
          (if backgroundChoice o ≠ "#333333" then "#333333" else "#FFFFFF")
        else secondaryCandidate o := rfl
    rw [hs]
    by_cases hc : getContrast (secondaryCandidate o) (backgroundChoice o) < 3
    · rw [if_pos hc]
      by_cases hbg : backgroundChoice o ≠ "#333333"
      · rw [if_pos hbg]; right; decide
      · rw [if_neg hbg]; right; decide
    · rw [if_neg hc]
      unfold secondaryCandidate
      rcases getD_mem_or (rankedColors o) 1 "#666666" with h | h
      · rcases rankedColors_mem o _ h with h2 | h2
        · exact Or.inl h2
        · right; rw [h2]; decide
      · right; rw [h]; decide
  · have hb : (processColors o).backgroundColor =
        getMostCommonColor (o.backgroundColors.map convertToHex) "#FFFFFF" := rfl
    rw [hb]
    rcases getMostCommonColor_cases (o.backgroundColors.map convertToHex) "#FFFFFF"
      with h | h
    · right; rw [h]; decide
    · left
      rcases List.mem_map.mp h with ⟨s, hs, hconv⟩
      exact List.mem_filterMap.mpr ⟨s, by unfold rawColorList; simp [hs], hconv⟩
  · have hl : (processColors o).linkColor =
        getMostCommonColor (o.linkColors.map convertToHex) "#0066CC" := rfl
    rw [hl]
    rcases getMostCommonColor_cases (o.linkColors.map convertToHex) "#0066CC"
      with h | h
    · right; rw [h]; decide
    · left
      rcases List.mem_map.mp h with ⟨s, hs, hconv⟩
      exact List.mem_filterMap.mpr ⟨s, by unfold rawColorList; simp [hs], hconv⟩

end Brand
